import Mathlib

/-!
Verification development for the mcp-observatory event pipeline.

The definitions below are a shallow embedding of the TypeScript sources:

* `packages/mcp-server/src/datasources/file.ts` — the file-backed data
  source (`loadEvents`, `filterByTimeRange`, `getServerMetrics`,
  `getToolStats`, `getErrorLogs`, `getAllServersErrorLogs`).
* `packages/sdk/src/observatory.ts` — the collector (`trackToolCall`
  sampling gate, `flush` requeue-on-failure).
* `packages/sdk/src/reporters/file.ts` — the durable file sink
  (`FileReporter.send`).

Modelling conventions: JavaScript numbers are modelled as exact rationals
(`ℚ`) and epoch-millisecond timestamps as integers (`ℤ`); `Array.sort`
with a numeric comparator is modelled by `List.insertionSort` (a stable,
comparator-respecting sort, as ECMAScript requires); the insertion-ordered
`Map`/record accumulation idiom is modelled by insertion-ordered grouping
(`groupByKey`); file contents are modelled as the parsed record list, and
wall-clock reads (`Date.now()`, `stat.mtimeMs`) are explicit parameters.
-/

namespace MCPObservatory

/-- Time-range options for queries (source: `TimeRangeSchema` in types). -/
inductive TimeRange
  | m5 | h1 | h24 | d7 | d30
deriving DecidableEq, Repr, Inhabited

/-- Window-duration mapping in milliseconds (source: `filterByTimeRange` ranges table). -/
def TimeRange.ms : TimeRange → Int
  | .m5 => 5 * 60 * 1000
  | .h1 => 60 * 60 * 1000
  | .h24 => 24 * 60 * 60 * 1000
  | .d7 => 7 * 24 * 60 * 60 * 1000
  | .d30 => 30 * 24 * 60 * 60 * 1000

/-- Severity levels accepted by the error-log query (source: `SeveritySchema`). -/
inductive Severity
  | all | errorLevel | critical
deriving DecidableEq, Repr, Inhabited

/-- Invocation record (source: `ToolCallEvent` interface). The opaque structured
parameter payload and metadata maps are modelled as key-value lists. -/
structure ToolCallEvent where
  id : String
  timestamp : Int
  serverId : String
  toolName : String
  parameters : List (String × String)
  duration : Option ℚ
  success : Bool
  errorMessage : Option String
  metadata : Option (List (String × String))
deriving DecidableEq, Repr, Inhabited

/-- Error record (source: `ErrorEvent` interface). -/
structure ErrorEvent where
  id : String
  timestamp : Int
  serverId : String
  errorType : String
  message : String
  stack : Option String
  metadata : Option (List (String × String))
deriving DecidableEq, Repr, Inhabited

/-- The union `ToolCallEvent | ErrorEvent`. The source discriminates
structurally (`'toolName' in event` / `'errorType' in event`), which
corresponds exactly to the constructor of this sum. -/
inductive Event
  | toolCall (e : ToolCallEvent)
  | errorEvent (e : ErrorEvent)
deriving DecidableEq, Repr, Inhabited

def Event.timestamp : Event → Int
  | .toolCall e => e.timestamp
  | .errorEvent e => e.timestamp

def Event.serverId : Event → String
  | .toolCall e => e.serverId
  | .errorEvent e => e.serverId

/-- Keep the events whose timestamp is at or after `now - range`
(source: `filterByTimeRange`, `event.timestamp >= cutoff`). -/
def filterByTimeRange (now : Int) (events : List Event) (timeRange : TimeRange) : List Event :=
  events.filter (fun e => decide (now - timeRange.ms ≤ e.timestamp))

/-- Ascending numeric sort, `sort((a, b) => a - b)` in the source. -/
def sortAsc (l : List ℚ) : List ℚ := l.insertionSort (· ≤ ·)

/-- The sorted duration distribution of a record list (source: the `durations`
local: filter out records without a duration, map to the duration, sort). -/
def durationsOf (l : List ToolCallEvent) : List ℚ := sortAsc (l.filterMap (·.duration))

/-- Index used by the percentile lookup: `Math.floor(durations.length * p)`. -/
def percentileIndex (n : Nat) (p : ℚ) : Nat := (Int.floor ((n : ℚ) * p)).toNat

/-- The lookup `durations[Math.floor(durations.length * p)] || 0`: a missing
element — and a zero element, which is falsy — yields 0. -/
def percentileAt (sorted : List ℚ) (p : ℚ) : ℚ :=
  sorted.getD (percentileIndex sorted.length p) 0

/-- Arithmetic mean of a duration list, 0 when empty (source: `avgDuration`;
`reduce((sum, d) => sum + d, 0)` is the list sum). -/
def meanOrZero (l : List ℚ) : ℚ := if 0 < l.length then l.sum / (l.length : ℚ) else 0

/-- First occurrence of each key, in order (the key order of a JS `Map` or
string-keyed object, which preserves insertion order). -/
def firstKeys : List String → List String
  | [] => []
  | k :: ks => k :: (firstKeys ks).filter (fun k2 => decide (¬ k2 = k))

/-- Insertion-ordered grouping by a string key: the denotation of the source's
`Map.set`/`push` and record-accumulation loops. Groups appear in first-occurrence
order of their key, and each group lists its members in input order. -/
def groupByKey {β : Type} (key : β → String) (l : List β) : List (String × List β) :=
  (firstKeys (l.map key)).map (fun k => (k, l.filter (fun e => decide (key e = k))))

/-- Total duration accumulated for one tool (source:
`if (event.duration) { toolCounts[...].totalDuration += event.duration }`;
an absent duration — and a 0 duration, which is falsy — is skipped). -/
def truthyDurationSum (l : List ToolCallEvent) : ℚ :=
  l.foldl (fun s e =>
    match e.duration with
    | some d => if d = 0 then s else s + d
    | none => s) 0

/-- One entry of the top-tools ranking. -/
structure TopTool where
  name : String
  calls : Nat
  avg_duration_ms : ℚ
deriving DecidableEq, Repr, Inhabited

/-- Descending order on a numeric key, the model of the comparator
`(a, b) => b.k - a.k`. -/
def keyDesc {α : Type} (f : α → Nat) : α → α → Prop := fun a b => f b ≤ f a

instance {α : Type} (f : α → Nat) : DecidableRel (keyDesc f) :=
  fun a b => inferInstanceAs (Decidable (f b ≤ f a))

instance {α : Type} (f : α → Nat) : IsTotal α (keyDesc f) :=
  ⟨fun a b => Nat.le_total (f b) (f a)⟩

instance {α : Type} (f : α → Nat) : IsTrans α (keyDesc f) :=
  ⟨fun _ _ _ hab hbc => le_trans hbc hab⟩

/-- The `topTools` computation (source: `toolCounts` accumulation, then map to
`{name, calls, avg_duration_ms}`, sort descending by calls, `slice(0, 10)`).
The per-tool average divides the accumulated truthy duration by the tool's
total call count. -/
def topToolsOf (l : List ToolCallEvent) : List TopTool :=
  (((groupByKey (·.toolName) l).map (fun kg =>
      ({ name := kg.1
         calls := kg.2.length
         avg_duration_ms :=
           if 0 < kg.2.length then truthyDurationSum kg.2 / (kg.2.length : ℚ) else 0 } : TopTool))).insertionSort
    (keyDesc TopTool.calls)).take 10

structure MetricsBody where
  total_calls : Nat
  success_rate : ℚ
  avg_duration_ms : ℚ
  p50_duration_ms : ℚ
  p95_duration_ms : ℚ
  p99_duration_ms : ℚ
  error_rate : ℚ
  top_tools : List TopTool
deriving DecidableEq, Repr, Inhabited

structure ServerMetrics where
  server_id : String
  time_range : TimeRange
  metrics : MetricsBody
deriving DecidableEq, Repr, Inhabited

/-- The invocation records of one named server inside the window
(source: `getServerMetrics` single-server `filtered`). -/
def serverToolCalls (now : Int) (events : List Event) (serverId : String)
    (timeRange : TimeRange) : List ToolCallEvent :=
  (filterByTimeRange now events timeRange).filterMap (fun e =>
    match e with
    | .toolCall t => if t.serverId = serverId then some t else none
    | .errorEvent _ => none)

/-- The single-server branch of `getServerMetrics` (file.ts lines 592–658).
The all-servers branch taken when `serverId` is absent is not needed by the
claims and is not modelled. -/
def getServerMetrics (now : Int) (events : List Event) (serverId : String)
    (timeRange : TimeRange) : ServerMetrics :=
  let filtered := serverToolCalls now events serverId timeRange
  let totalCalls := filtered.length
  let successfulCalls := (filtered.filter (·.success)).length
  let successRate : ℚ := if 0 < totalCalls then (successfulCalls : ℚ) / (totalCalls : ℚ) else 0
  let durations := durationsOf filtered
  { server_id := serverId
    time_range := timeRange
    metrics :=
      { total_calls := totalCalls
        success_rate := successRate
        avg_duration_ms := meanOrZero durations
        p50_duration_ms := percentileAt durations (1/2)
        p95_duration_ms := percentileAt durations (95/100)
        p99_duration_ms := percentileAt durations (99/100)
        error_rate := 1 - successRate
        top_tools := topToolsOf filtered } }

structure ToolStatsBody where
  total_calls : Nat
  success_count : Nat
  error_count : Nat
  avg_duration_ms : ℚ
  p50_duration_ms : ℚ
  p95_duration_ms : ℚ
  p99_duration_ms : ℚ
deriving DecidableEq, Repr, Inhabited

structure ToolStats where
  server_id : String
  tool_name : String
  time_range : TimeRange
  stats : ToolStatsBody
deriving DecidableEq, Repr, Inhabited

/-- The invocation records of one server and one tool inside the window
(source: `getToolStats` single-server `filtered`). -/
def serverToolCallsNamed (now : Int) (events : List Event) (serverId toolName : String)
    (timeRange : TimeRange) : List ToolCallEvent :=
  (filterByTimeRange now events timeRange).filterMap (fun e =>
    match e with
    | .toolCall t => if t.serverId = serverId ∧ t.toolName = toolName then some t else none
    | .errorEvent _ => none)

/-- The single-server branch of `getToolStats` (file.ts lines 761–806). -/
def getToolStats (now : Int) (events : List Event) (serverId toolName : String)
    (timeRange : TimeRange) : ToolStats :=
  let filtered := serverToolCallsNamed now events serverId toolName timeRange
  let totalCalls := filtered.length
  let successCount := (filtered.filter (·.success)).length
  let durations := durationsOf filtered
  { server_id := serverId
    tool_name := toolName
    time_range := timeRange
    stats :=
      { total_calls := totalCalls
        success_count := successCount
        error_count := totalCalls - successCount
        avg_duration_ms := meanOrZero durations
        p50_duration_ms := percentileAt durations (1/2)
        p95_duration_ms := percentileAt durations (95/100)
        p99_duration_ms := percentileAt durations (99/100) } }

/-- Specification-side percentile, written from the spec's words: sort the
durations ascending, take the element at index floor(p × N), an empty
distribution yields 0. -/
def specPercentile (durations : List ℚ) (p : ℚ) : ℚ :=
  if durations.length = 0 then 0
  else (sortAsc durations).getD ((Int.floor (p * (durations.length : ℚ))).toNat) 0

/-- Specification-side average duration, written from the spec's words: the
arithmetic mean over exactly the records that carry a duration (records
without a duration excluded from numerator and denominator). -/
def specMeanCarrying (l : List ToolCallEvent) : ℚ :=
  let ds := l.filterMap (·.duration)
  if ds.length = 0 then 0 else ds.sum / (ds.length : ℚ)

/-- One reported error-log entry. The ISO rendering of the timestamp
(`new Date(...).toISOString()`) is an injective presentation step and the
raw epoch-millisecond value is kept instead. -/
structure ErrorLogEntry where
  id : String
  timestamp : Int
  tool_name : String
  error_type : String
  message : String
  stack : Option String
  frequency : Nat
deriving DecidableEq, Repr, Inhabited

/-- Lookup of a key in a metadata map. -/
def lookupMeta (m : List (String × String)) (k : String) : Option String :=
  (m.find? (fun p => decide (p.1 = k))).map (·.2)

/-- The subject-name recovery `(latest.metadata?.toolName as string) || 'unknown'`:
an absent metadata map, an absent key, and an empty (falsy) string all yield
"unknown". -/
def recoverToolName (metadata : Option (List (String × String))) : String :=
  match metadata with
  | none => "unknown"
  | some m =>
    match lookupMeta m "toolName" with
    | none => "unknown"
    | some s => if s = "" then "unknown" else s

/-- Build the reported entry of one error group (source: the map over
`errorGroups.entries()`; `latest = events[events.length - 1]` is the last
member of the group in input order). -/
def entryOfGroup (g : List ErrorEvent) : ErrorLogEntry :=
  let latest := g.getLastD default
  { id := latest.id
    timestamp := latest.timestamp
    tool_name := recoverToolName latest.metadata
    error_type := latest.errorType
    message := latest.message
    stack := latest.stack
    frequency := g.length }

/-- The effective truncation bound `params.limit || 50`: an absent limit and a
0 (falsy) limit both fall back to 50. -/
def effectiveLimit (limit : Option Nat) : Nat :=
  match limit with
  | some n => if n = 0 then 50 else n
  | none => 50

/-- Group key of the single-server error view: `errorType + ":" + message`. -/
def singleErrorKey (e : ErrorEvent) : String := e.errorType ++ ":" ++ e.message

/-- Group key of the all-servers error view:
`serverId + ":" + errorType + ":" + message`. -/
def allErrorKey (e : ErrorEvent) : String :=
  e.serverId ++ ":" ++ e.errorType ++ ":" ++ e.message

/-- The error records of one named server (source: `getErrorLogs` single-server
`errorEvents`; note no time-range filtering is applied to error logs). -/
def serverErrorEvents (events : List Event) (serverId : String) : List ErrorEvent :=
  events.filterMap (fun e =>
    match e with
    | .errorEvent er => if er.serverId = serverId then some er else none
    | .toolCall _ => none)

/-- All error records regardless of server (source: `getAllServersErrorLogs`
`errorEvents`). -/
def allErrorEvents (events : List Event) : List ErrorEvent :=
  events.filterMap (fun e =>
    match e with
    | .errorEvent er => some er
    | .toolCall _ => none)

/-- The sorted, truncated error list of the single-server view (source:
`getErrorLogs` lines 907–931: group by type:message, map to entries taking the
last group member, sort descending by frequency, `slice(0, params.limit || 50)`). -/
def singleServerErrors (events : List Event) (serverId : String) (limit : Option Nat) :
    List ErrorLogEntry :=
  (((groupByKey singleErrorKey (serverErrorEvents events serverId)).map
      (fun kg => entryOfGroup kg.2)).insertionSort
    (keyDesc ErrorLogEntry.frequency)).take (effectiveLimit limit)

/-- The combined sorted, truncated error list of the all-servers view, each
entry tagged with the server of its last occurrence (source:
`getAllServersErrorLogs` `allErrors`, lines 954–980: group by
serverId:type:message globally, map to entries, sort descending by frequency,
apply the global limit). -/
def combinedErrors (events : List Event) (limit : Option Nat) :
    List (String × ErrorLogEntry) :=
  (((groupByKey allErrorKey (allErrorEvents events)).map
      (fun kg => ((kg.2.getLastD default).serverId, entryOfGroup kg.2))).insertionSort
    (keyDesc (fun p => p.2.frequency))).take (effectiveLimit limit)

/-- Per-server slice of the all-servers error view. -/
structure ServerErrors where
  server_id : String
  errors : List ErrorLogEntry
  total_count : Nat
deriving DecidableEq, Repr, Inhabited

/-- The error-logs response: the single-server shape or the all-servers shape. -/
inductive ErrorLogsResponse
  | single (server_id : String) (errors : List ErrorLogEntry) (total_count : Nat)
  | all (servers : List ServerErrors) (total_count : Nat)
deriving DecidableEq, Repr, Inhabited

/-- The all-servers error view (source: `getAllServersErrorLogs`): the globally
limited combined list is regrouped by server id (ids in first-occurrence
order), and each server also reports its total error count. -/
def getAllServersErrorLogs (events : List Event) (limit : Option Nat)
    (_severity : Severity) : ErrorLogsResponse :=
  let errorEvents := allErrorEvents events
  let serverIds := firstKeys (errorEvents.map (·.serverId))
  let allErrors := combinedErrors events limit
  let servers := serverIds.map (fun sid =>
    ({ server_id := sid
       errors := (allErrors.filter (fun p => decide (p.1 = sid))).map (·.2)
       total_count := (errorEvents.filter (fun e => decide (e.serverId = sid))).length } :
      ServerErrors))
  .all servers errorEvents.length

/-- The public error-log query (source: `getErrorLogs`, lines 894–948). A falsy
`serverId` — absent or the empty string — routes to the all-servers view. The
`severity` parameter is accepted and passed through but never used. -/
def getErrorLogs (events : List Event) (serverId : Option String) (limit : Option Nat)
    (severity : Severity) : ErrorLogsResponse :=
  match serverId with
  | none => getAllServersErrorLogs events limit severity
  | some sid =>
    if sid = "" then getAllServersErrorLogs events limit severity
    else
      .single sid (singleServerErrors events sid limit)
        (serverErrorEvents events sid).length

/-- Server-side cache state (source: `FileDataSource` fields `eventsCache`,
`lastCacheTime`, `lastFileModificationTime`). `mtimeMs` is a JS number and is
modelled as a rational. -/
structure LoaderState where
  eventsCache : Option (List Event)
  lastCacheTime : Int
  lastFileModificationTime : ℚ
deriving DecidableEq, Repr, Inhabited

/-- A view of the log file at one instant: its modification time and its
parsed record list (corrupt lines are already dropped by the line parser,
which is not needed by the claims). -/
structure FileView where
  mtimeMs : ℚ
  records : List Event
deriving DecidableEq, Repr, Inhabited

def CACHE_TTL_MS : Int := 5000

/-- The cached loader `loadEvents` (file.ts lines 492–559). `file = none`
models the ENOENT path: the file does not exist and an empty record set is
returned with the state untouched. Otherwise the cache is served exactly when
it exists, is younger than the TTL, and the modification time is unchanged;
any other case re-reads the file and records the new modification time and
capture time. -/
def loadEvents (st : LoaderState) (file : Option FileView) (now : Int) :
    List Event × LoaderState :=
  match file with
  | none => ([], st)
  | some f =>
    let fileHasChanged : Bool := decide (¬ f.mtimeMs = st.lastFileModificationTime)
    let cacheIsValid : Bool :=
      st.eventsCache.isSome && decide (now - st.lastCacheTime < CACHE_TTL_MS) && !fileHasChanged
    if cacheIsValid then
      (st.eventsCache.getD [], st)
    else
      (f.records,
       { eventsCache := some f.records
         lastCacheTime := now
         lastFileModificationTime := f.mtimeMs })

/-- The sampling gate of `Observatory.trackToolCall` (observatory.ts lines
63–77): draw `u`, drop the record when `u > sampling`, otherwise push it onto
the event queue (`addEvent`). -/
def trackToolCall (sampling u : ℚ) (queue : List Event) (ev : Event) : List Event :=
  if sampling < u then queue else queue ++ [ev]

/-- One `Observatory.flush` cycle (observatory.ts lines 120–144). `queue` is
the buffer at entry, `arrivals` are the records enqueued while the delivery is
in flight, `sendOk` tells whether the sink's delivery succeeded. Returns the
final live buffer and the batch handed to the sink (`none` when nothing was
delivered). An empty buffer returns before draining; on failure the drained
batch is prepended (`unshift`) back in front of the arrivals; the failure is
caught and never rethrown, which is why this is a total function into a plain
state rather than an exceptional result. -/
def flushStep (queue arrivals : List Event) (sendOk : Bool) :
    List Event × Option (List Event) :=
  if queue.isEmpty then (arrivals, none)
  else if sendOk then (arrivals, some queue)
  else (queue ++ arrivals, none)

/-- A minimal file-system view for the durable file sink: whether the parent
directory exists and the target file's content (`none` = absent). -/
structure SinkFS where
  dirExists : Bool
  fileContent : Option String
deriving DecidableEq, Repr, Inhabited

/-- Reporter-side state (source: `FileReporter.fileCreated`). -/
structure ReporterState where
  fileCreated : Bool
deriving DecidableEq, Repr, Inhabited

/-- `FileReporter.send` (reporters/file.ts lines 42–67). `serialize` models
`JSON.stringify` of one record; `ioOk` tells whether the append succeeds. An
empty batch returns before any I/O; otherwise the parent directory is ensured
on first use, the batch is serialized as newline-joined JSON with a trailing
newline, and one append is performed; an I/O failure propagates to the caller
(`Except.error`). -/
def fileReporterSend (serialize : Event → String) (events : List Event)
    (st : ReporterState) (fs : SinkFS) (ioOk : Bool) :
    Except String (ReporterState × SinkFS) :=
  if events.isEmpty then .ok (st, fs)
  else
    let fs1 := if st.fileCreated then fs else { fs with dirExists := true }
    if ioOk then
      let ndjson := String.intercalate "\n" (events.map serialize) ++ "\n"
      .ok ({ fileCreated := true },
        { fs1 with fileContent := some ((fs1.fileContent.getD "") ++ ndjson) })
    else .error "append failed"

/-- Concrete invocation-record builder used by concrete evaluations. -/
def mkToolEvent (id sid tn : String) (ts : Int) (dur : Option ℚ) (succ : Bool) : Event :=
  .toolCall
    { id := id, timestamp := ts, serverId := sid, toolName := tn, parameters := []
      duration := dur, success := succ, errorMessage := none, metadata := none }

/-- Concrete error-record builder used by concrete evaluations. -/
def mkErrorEvent (id sid ty msg : String) (ts : Int)
    (md : Option (List (String × String))) : Event :=
  .errorEvent
    { id := id, timestamp := ts, serverId := sid, errorType := ty, message := msg
      stack := none, metadata := md }

/-- Error-record fixture: source s1, category T, message M, timestamp 100. -/
def errA : ErrorEvent := ⟨"a", 100, "s1", "T", "M", none, none⟩

/-- Error-record fixture: source s1, same category and message, older timestamp 50. -/
def errB : ErrorEvent := ⟨"b", 50, "s1", "T", "M", none, none⟩

/-- Error-record fixture: source s2, same category and message as errA. -/
def errC : ErrorEvent := ⟨"c", 200, "s2", "T", "M", none, none⟩

/-- Invocation fixture: tool t on server s with duration 100. -/
def tcA : ToolCallEvent := ⟨"1", 0, "s", "t", [], some 100, true, none, none⟩

/-- Invocation fixture: same tool and server, no duration recorded. -/
def tcB : ToolCallEvent := ⟨"2", 0, "s", "t", [], none, true, none, none⟩

/-! Helper lemmas about the shared machinery. -/

theorem length_sortAsc (l : List ℚ) : (sortAsc l).length = l.length :=
  List.length_insertionSort _ l

theorem sum_sortAsc (l : List ℚ) : (sortAsc l).sum = l.sum :=
  (List.perm_insertionSort _ l).sum_eq

theorem percentileAt_sortAsc_eq_spec (raw : List ℚ) (p : ℚ) :
    percentileAt (sortAsc raw) p = specPercentile raw p := by
  unfold percentileAt specPercentile percentileIndex
  rw [length_sortAsc]
  by_cases h : raw.length = 0
  · have hraw : raw = [] := List.length_eq_zero.mp h
    subst hraw
    simp [sortAsc, List.insertionSort]
  · rw [if_neg h, mul_comm]

theorem percentileIndex_lt (n : Nat) (p : ℚ) (h1 : p < 1) (hn : 0 < n) :
    percentileIndex n p < n := by
  unfold percentileIndex
  have hlt : ((n : ℚ) * p) < (n : ℚ) := by
    calc (n : ℚ) * p < (n : ℚ) * 1 := by
          apply mul_lt_mul_of_pos_left h1
          exact_mod_cast hn
      _ = (n : ℚ) := mul_one _
  have hfl : Int.floor ((n : ℚ) * p) < (n : Int) := by
    rw [Int.floor_lt]
    exact_mod_cast hlt
  omega

theorem mem_firstKeys (k : String) (ks : List String) : k ∈ firstKeys ks ↔ k ∈ ks := by
  induction ks with
  | nil => simp [firstKeys]
  | cons a ks ih =>
    simp only [firstKeys, List.mem_cons, List.mem_filter, decide_eq_true_eq]
    constructor
    · rintro (rfl | ⟨h, _⟩)
      · exact Or.inl rfl
      · exact Or.inr (ih.mp h)
    · rintro (rfl | h)
      · exact Or.inl rfl
      · by_cases hk : k = a
        · exact Or.inl hk
        · exact Or.inr ⟨ih.mpr h, hk⟩

theorem of_mem_groupByKey {β : Type} {key : β → String} {l : List β}
    {kg : String × List β} (h : kg ∈ groupByKey key l) :
    kg.1 ∈ firstKeys (l.map key) ∧ kg.2 = l.filter (fun e => decide (key e = kg.1)) := by
  unfold groupByKey at h
  obtain ⟨k, hk, rfl⟩ := List.mem_map.mp h
  exact ⟨hk, rfl⟩

theorem mem_groupByKey_of {β : Type} (key : β → String) (l : List β) {k : String}
    (h : k ∈ firstKeys (l.map key)) :
    (k, l.filter (fun e => decide (key e = k))) ∈ groupByKey key l := by
  unfold groupByKey
  exact List.mem_map.mpr ⟨k, h, rfl⟩

theorem group_ne_nil {β : Type} {key : β → String} {l : List β}
    {kg : String × List β} (h : kg ∈ groupByKey key l) : kg.2 ≠ [] := by
  obtain ⟨h1, h2⟩ := of_mem_groupByKey h
  have hmem : kg.1 ∈ l.map key := (mem_firstKeys _ _).mp h1
  obtain ⟨e, he, hke⟩ := List.mem_map.mp hmem
  intro hnil
  have : e ∈ kg.2 := by
    rw [h2]
    exact List.mem_filter.mpr ⟨he, by simp [hke]⟩
  simp [hnil] at this

theorem same_key_same_group {β : Type} (key : β → String) (l : List β) {x y : β}
    (hx : x ∈ l) (hy : y ∈ l) (hk : key x = key y) :
    ∃ kg ∈ groupByKey key l, x ∈ kg.2 ∧ y ∈ kg.2 := by
  have hkx : key x ∈ firstKeys (l.map key) :=
    (mem_firstKeys _ _).mpr (List.mem_map.mpr ⟨x, hx, rfl⟩)
  refine ⟨(key x, l.filter (fun e => decide (key e = key x))),
    mem_groupByKey_of key l hkx, ?_, ?_⟩
  · exact List.mem_filter.mpr ⟨hx, by simp⟩
  · exact List.mem_filter.mpr ⟨hy, by simp [hk]⟩

theorem sorted_take {α : Type} {r : α → α → Prop} {l : List α} (n : Nat)
    (h : List.Sorted r l) : List.Sorted r (l.take n) :=
  List.Pairwise.sublist (List.take_sublist n l) h

theorem meanOrZero_sortAsc (ds : List ℚ) :
    meanOrZero (sortAsc ds) = if ds.length = 0 then 0 else ds.sum / (ds.length : ℚ) := by
  unfold meanOrZero
  rw [length_sortAsc, sum_sortAsc]
  by_cases h : ds.length = 0
  · simp [h]
  · rw [if_pos (Nat.pos_of_ne_zero h), if_neg h]

/-- C1: In the metrics and tool-stats views each percentile p ∈ {0.5, 0.95, 0.99}
equals the spec-side estimator — sort the durations ascending and take the
element at index floor(p × N) — with every percentile 0 on an empty
distribution; the index is in bounds whenever the distribution is non-empty;
and for the durations [50,100,200,300] the views report p50 = 200, p95 = 300
and p99 = 300. -/
theorem percentile_floor_indexing :
    (∀ (now : Int) (events : List Event) (sid : String) (tr : TimeRange),
        (getServerMetrics now events sid tr).metrics.p50_duration_ms
            = specPercentile ((serverToolCalls now events sid tr).filterMap (·.duration)) (1/2)
        ∧ (getServerMetrics now events sid tr).metrics.p95_duration_ms
            = specPercentile ((serverToolCalls now events sid tr).filterMap (·.duration)) (95/100)
        ∧ (getServerMetrics now events sid tr).metrics.p99_duration_ms
            = specPercentile ((serverToolCalls now events sid tr).filterMap (·.duration)) (99/100))
    ∧ (∀ (now : Int) (events : List Event) (sid tn : String) (tr : TimeRange),
        (getToolStats now events sid tn tr).stats.p50_duration_ms
            = specPercentile ((serverToolCallsNamed now events sid tn tr).filterMap (·.duration)) (1/2)
        ∧ (getToolStats now events sid tn tr).stats.p95_duration_ms
            = specPercentile ((serverToolCallsNamed now events sid tn tr).filterMap (·.duration)) (95/100)
        ∧ (getToolStats now events sid tn tr).stats.p99_duration_ms
            = specPercentile ((serverToolCallsNamed now events sid tn tr).filterMap (·.duration)) (99/100))
    ∧ (∀ p : ℚ, specPercentile [] p = 0 ∧ percentileAt [] p = 0)
    ∧ (∀ l : List ℚ, l = []
        ∨ (percentileIndex l.length (1/2) < l.length
           ∧ percentileIndex l.length (95/100) < l.length
           ∧ percentileIndex l.length (99/100) < l.length))
    ∧ ((getServerMetrics 0 [mkToolEvent "1" "s" "t" 0 (some 50) true,
            mkToolEvent "2" "s" "t" 0 (some 100) true,
            mkToolEvent "3" "s" "t" 0 (some 200) true,
            mkToolEvent "4" "s" "t" 0 (some 300) true] "s" .h1).metrics.p50_duration_ms = 200
        ∧ (getServerMetrics 0 [mkToolEvent "1" "s" "t" 0 (some 50) true,
            mkToolEvent "2" "s" "t" 0 (some 100) true,
            mkToolEvent "3" "s" "t" 0 (some 200) true,
            mkToolEvent "4" "s" "t" 0 (some 300) true] "s" .h1).metrics.p95_duration_ms = 300
        ∧ (getServerMetrics 0 [mkToolEvent "1" "s" "t" 0 (some 50) true,
            mkToolEvent "2" "s" "t" 0 (some 100) true,
            mkToolEvent "3" "s" "t" 0 (some 200) true,
            mkToolEvent "4" "s" "t" 0 (some 300) true] "s" .h1).metrics.p99_duration_ms = 300) := by
  refine ⟨?_, ?_, ?_, ?_, ?_⟩
  · intro now events sid tr
    exact ⟨percentileAt_sortAsc_eq_spec _ _, percentileAt_sortAsc_eq_spec _ _,
      percentileAt_sortAsc_eq_spec _ _⟩
  · intro now events sid tn tr
    exact ⟨percentileAt_sortAsc_eq_spec _ _, percentileAt_sortAsc_eq_spec _ _,
      percentileAt_sortAsc_eq_spec _ _⟩
  · intro p
    constructor
    · simp [specPercentile]
    · simp [percentileAt]
  · intro l
    rcases eq_or_ne l [] with rfl | h
    · exact Or.inl rfl
    · have hn : 0 < l.length := List.length_pos.mpr h
      exact Or.inr ⟨percentileIndex_lt _ _ (by norm_num) hn,
        percentileIndex_lt _ _ (by norm_num) hn, percentileIndex_lt _ _ (by norm_num) hn⟩
  · have h1 : durationsOf (serverToolCalls 0 [mkToolEvent "1" "s" "t" 0 (some 50) true,
        mkToolEvent "2" "s" "t" 0 (some 100) true, mkToolEvent "3" "s" "t" 0 (some 200) true,
        mkToolEvent "4" "s" "t" 0 (some 300) true] "s" TimeRange.h1) = [50, 100, 200, 300] := by
      decide
    have hi50 : percentileIndex 4 (1/2 : ℚ) = 2 := by
      unfold percentileIndex
      norm_num
      decide
    have hi95 : percentileIndex 4 (95/100 : ℚ) = 3 := by
      unfold percentileIndex
      norm_num
      decide
    have hi99 : percentileIndex 4 (99/100 : ℚ) = 3 := by
      unfold percentileIndex
      norm_num
      decide
    refine ⟨?_, ?_, ?_⟩
    · show percentileAt (durationsOf (serverToolCalls 0 _ "s" TimeRange.h1)) (1/2) = 200
      rw [h1]
      show List.getD _ (percentileIndex 4 (1/2)) 0 = 200
      rw [hi50]
      rfl
    · show percentileAt (durationsOf (serverToolCalls 0 _ "s" TimeRange.h1)) (95/100) = 300
      rw [h1]
      show List.getD _ (percentileIndex 4 (95/100)) 0 = 300
      rw [hi95]
      rfl
    · show percentileAt (durationsOf (serverToolCalls 0 _ "s" TimeRange.h1)) (99/100) = 300
      rw [h1]
      show List.getD _ (percentileIndex 4 (99/100)) 0 = 300
      rw [hi99]
      rfl

theorem loadEvents_some (st : LoaderState) (f : FileView) (now : Int) :
    loadEvents st (some f) now =
      if st.eventsCache.isSome = true ∧ now - st.lastCacheTime < CACHE_TTL_MS
          ∧ f.mtimeMs = st.lastFileModificationTime
      then (st.eventsCache.getD [], st)
      else (f.records, ⟨some f.records, now, f.mtimeMs⟩) := by
  simp only [loadEvents]
  by_cases h1 : st.eventsCache.isSome = true <;>
    by_cases h2 : now - st.lastCacheTime < CACHE_TTL_MS <;>
      by_cases h3 : f.mtimeMs = st.lastFileModificationTime <;>
        simp [h1, h2, h3]

/-- C2: a load call returns the in-memory cached record set exactly when a
cache exists, the time since the last capture is strictly under 5000 ms, and
the file's modification time equals the one recorded at the last capture;
otherwise the file's full record set is returned and the new modification
time and capture time are recorded; in particular a changed modification time
forces the fresh records even inside the staleness window. -/
theorem cache_validity_and_coherence (st : LoaderState) (f : FileView) (now : Int) :
    ((st.eventsCache.isSome = true ∧ now - st.lastCacheTime < CACHE_TTL_MS
        ∧ f.mtimeMs = st.lastFileModificationTime) →
      loadEvents st (some f) now = (st.eventsCache.getD [], st))
    ∧ (¬ (st.eventsCache.isSome = true ∧ now - st.lastCacheTime < CACHE_TTL_MS
        ∧ f.mtimeMs = st.lastFileModificationTime) →
      loadEvents st (some f) now = (f.records, ⟨some f.records, now, f.mtimeMs⟩))
    ∧ (¬ f.mtimeMs = st.lastFileModificationTime →
      loadEvents st (some f) now = (f.records, ⟨some f.records, now, f.mtimeMs⟩)) := by
  rw [loadEvents_some]
  exact ⟨fun h => if_pos h, fun h => if_neg h, fun h3 => if_neg (fun hc => h3 hc.2.2)⟩

/-- C2 witness: a warm cache (captured at time 0, mtime 0) is served at time 1
with an unchanged file; with mtime 1 ≠ 0 the same call instead reloads and
returns the appended file contents even though the TTL has not elapsed. -/
theorem cache_validity_witness :
    loadEvents ⟨some [], 0, 0⟩ (some ⟨0, [mkToolEvent "e" "s" "t" 0 none true]⟩) 1
      = ([], ⟨some [], 0, 0⟩)
    ∧ loadEvents ⟨some [], 0, 0⟩ (some ⟨1, [mkToolEvent "e" "s" "t" 0 none true]⟩) 1
      = ([mkToolEvent "e" "s" "t" 0 none true],
         ⟨some [mkToolEvent "e" "s" "t" 0 none true], 1, 1⟩) := by
  constructor
  · exact (cache_validity_and_coherence ⟨some [], 0, 0⟩ ⟨0, [mkToolEvent "e" "s" "t" 0 none true]⟩ 1).1
      ⟨rfl, by norm_num [CACHE_TTL_MS], rfl⟩
  · exact (cache_validity_and_coherence ⟨some [], 0, 0⟩ ⟨1, [mkToolEvent "e" "s" "t" 0 none true]⟩ 1).2.2
      (by norm_num)

/-- C3 counterexample: two error records with identical (category, message)
but different sources. The all-sources view groups by the key
serverId:errorType:message, so they remain two separate entries of frequency 1
instead of one logical entry of frequency 2 as the claim requires. -/
theorem error_grouping_counterexample :
    (allErrorEvents [.errorEvent errA, .errorEvent errC]).map
        (fun e => (e.errorType, e.message)) = [("T", "M"), ("T", "M")]
    ∧ combinedErrors [.errorEvent errA, .errorEvent errC] none
        = [("s1", ⟨"a", 100, "unknown", "T", "M", none, 1⟩),
           ("s2", ⟨"c", 200, "unknown", "T", "M", none, 1⟩)] := by
  exact ⟨rfl, by decide⟩

/-- C3 amended: in the single-source view, records of that source with
identical (category, message) fall into one group whose size is the reported
frequency; in the all-sources view the group key additionally contains the
source, so only records agreeing on (source, category, message) are merged;
the resulting lists are sorted descending by frequency and truncated to the
effective limit (the requested limit, with 50 used when it is absent or 0),
the truncation applying globally to the combined list in the all-sources case
(each per-source slice only projects the globally limited list). -/
theorem error_grouping_amended :
    (∀ (events : List Event) (sid : String) (x y : ErrorEvent),
        x ∈ serverErrorEvents events sid → y ∈ serverErrorEvents events sid →
        x.errorType = y.errorType → x.message = y.message →
        ∃ kg ∈ groupByKey singleErrorKey (serverErrorEvents events sid),
          x ∈ kg.2 ∧ y ∈ kg.2)
    ∧ (∀ (events : List Event) (x y : ErrorEvent),
        x ∈ allErrorEvents events → y ∈ allErrorEvents events →
        x.serverId = y.serverId → x.errorType = y.errorType → x.message = y.message →
        ∃ kg ∈ groupByKey allErrorKey (allErrorEvents events),
          x ∈ kg.2 ∧ y ∈ kg.2)
    ∧ (∀ (events : List Event) (sid : String) (limit : Option Nat),
        ∀ entry ∈ singleServerErrors events sid limit,
          ∃ k : String,
            entry = entryOfGroup ((serverErrorEvents events sid).filter
              (fun e => decide (singleErrorKey e = k)))
            ∧ entry.frequency = ((serverErrorEvents events sid).filter
              (fun e => decide (singleErrorKey e = k))).length)
    ∧ (∀ (events : List Event) (sid : String) (limit : Option Nat),
        List.Sorted (keyDesc ErrorLogEntry.frequency) (singleServerErrors events sid limit)
        ∧ (singleServerErrors events sid limit).length ≤ effectiveLimit limit)
    ∧ (∀ (events : List Event) (limit : Option Nat),
        List.Sorted (keyDesc (fun p : String × ErrorLogEntry => p.2.frequency))
          (combinedErrors events limit)
        ∧ (combinedErrors events limit).length ≤ effectiveLimit limit)
    ∧ (∀ (events : List Event) (limit : Option Nat) (sev : Severity)
        (servers : List ServerErrors) (tc : Nat),
        getAllServersErrorLogs events limit sev = .all servers tc →
        ∀ s ∈ servers, ∀ e ∈ s.errors, (s.server_id, e) ∈ combinedErrors events limit) := by
  refine ⟨?_, ?_, ?_, ?_, ?_, ?_⟩
  · intro events sid x y hx hy h1 h2
    exact same_key_same_group singleErrorKey _ hx hy (by unfold singleErrorKey; rw [h1, h2])
  · intro events x y hx hy h0 h1 h2
    exact same_key_same_group allErrorKey _ hx hy (by unfold allErrorKey; rw [h0, h1, h2])
  · intro events sid limit entry hentry
    have h1 := List.mem_of_mem_take hentry
    have h2 := (List.mem_insertionSort _).mp h1
    obtain ⟨kg, hkg, heq⟩ := List.mem_map.mp h2
    obtain ⟨_, hfil⟩ := of_mem_groupByKey hkg
    refine ⟨kg.1, ?_, ?_⟩
    · rw [← heq, hfil]
    · rw [← heq]
      show kg.2.length = _
      rw [hfil]
  · intro events sid limit
    exact ⟨sorted_take _ (List.sorted_insertionSort _ _), List.length_take_le _ _⟩
  · intro events limit
    exact ⟨sorted_take _ (List.sorted_insertionSort _ _), List.length_take_le _ _⟩
  · intro events limit sev servers tc h s hs e he
    have hserv : servers = (firstKeys ((allErrorEvents events).map (·.serverId))).map
        (fun sid =>
          ({ server_id := sid
             errors := ((combinedErrors events limit).filter
               (fun p => decide (p.1 = sid))).map (·.2)
             total_count := ((allErrorEvents events).filter
               (fun e2 => decide (e2.serverId = sid))).length } : ServerErrors)) := by
      unfold getAllServersErrorLogs at h
      injection h.symm with h1 h2
    subst hserv
    obtain ⟨sid, _, hs⟩ := List.mem_map.mp hs
    have herr : s.errors = ((combinedErrors events limit).filter
        (fun p => decide (p.1 = sid))).map (·.2) := by rw [← hs]
    have hsid : s.server_id = sid := by rw [← hs]
    rw [herr] at he
    obtain ⟨pr, hp, hpe⟩ := List.mem_map.mp he
    have hp1 : pr.1 = sid := of_decide_eq_true (List.mem_filter.mp hp).2
    have hpr : (s.server_id, e) = pr := by
      rw [hsid, ← hp1, ← hpe]
    rw [hpr]
    exact (List.mem_filter.mp hp).1

/-- C3 witness: two s1 records with identical category and message land in the
same group of the single-source grouping. -/
theorem error_grouping_witness :
    ∃ kg ∈ groupByKey singleErrorKey
        (serverErrorEvents [.errorEvent errA, .errorEvent errB] "s1"),
      errA ∈ kg.2 ∧ errB ∈ kg.2 :=
  error_grouping_amended.1 [.errorEvent errA, .errorEvent errB] "s1" errA errB
    (by decide) (by decide) rfl rfl

/-- C4 counterexample: a group whose physically last record has the smaller
timestamp. The reported entry carries id "b" and timestamp 50 (the last line),
although the group contains an occurrence with the strictly greater timestamp
100 and id "a" — so the entry does not come from the greatest-timestamp
occurrence as the claim requires. -/
theorem latest_occurrence_counterexample :
    singleServerErrors [.errorEvent errA, .errorEvent errB] "s1" none
      = [⟨"b", 50, "unknown", "T", "M", none, 2⟩]
    ∧ errA ∈ serverErrorEvents [.errorEvent errA, .errorEvent errB] "s1"
    ∧ errA.timestamp = 100 ∧ (50 : Int) < 100 ∧ ¬ ("b" = "a") := by
  refine ⟨by decide, by decide, rfl, by decide, by decide⟩

/-- C4 amended: every reported entry of the error-log view takes its
identifier, timestamp, stack, category, message, and recovered subject name
("unknown" when the metadata carries none) from the occurrence that is
physically last in record order within its group — which is the
greatest-timestamp occurrence only when the log happens to be
timestamp-ordered. -/
theorem latest_occurrence_amended :
    ∀ (events : List Event) (sid : String) (limit : Option Nat),
      ∀ entry ∈ singleServerErrors events sid limit,
        ∃ e : ErrorEvent,
          e ∈ serverErrorEvents events sid
          ∧ entry.id = e.id ∧ entry.timestamp = e.timestamp ∧ entry.stack = e.stack
          ∧ entry.error_type = e.errorType ∧ entry.message = e.message
          ∧ entry.tool_name = recoverToolName e.metadata
          ∧ ((serverErrorEvents events sid).filter
              (fun x => decide (singleErrorKey x = singleErrorKey e))).getLast?
            = some e := by
  intro events sid limit entry hentry
  have h1 := List.mem_of_mem_take hentry
  have h2 := (List.mem_insertionSort _).mp h1
  obtain ⟨kg, hkg, heq⟩ := List.mem_map.mp h2
  have hne : kg.2 ≠ [] := group_ne_nil hkg
  obtain ⟨_, hfil⟩ := of_mem_groupByKey hkg
  have hsub : ∀ x, x ∈ kg.2 → x ∈ serverErrorEvents events sid := by
    intro x hx
    rw [hfil] at hx
    exact List.mem_of_mem_filter hx
  have hkeyall : ∀ x, x ∈ kg.2 → singleErrorKey x = kg.1 := by
    intro x hx
    rw [hfil] at hx
    exact of_decide_eq_true (List.mem_filter.mp hx).2
  refine ⟨kg.2.getLast hne, ?_, ?_, ?_, ?_, ?_, ?_, ?_, ?_⟩
  · exact hsub _ (List.getLast_mem hne)
  all_goals {
    have hlast : kg.2.getLastD default = kg.2.getLast hne := by
      rw [List.getLastD_eq_getLast? default kg.2, List.getLast?_eq_getLast kg.2 hne]
      rfl
    have hkey : singleErrorKey (kg.2.getLast hne) = kg.1 :=
      hkeyall _ (List.getLast_mem hne)
    first
    | (rw [← heq]
       show (entryOfGroup kg.2).id = _
       unfold entryOfGroup
       rw [hlast])
    | (rw [← heq]
       show (entryOfGroup kg.2).timestamp = _
       unfold entryOfGroup
       rw [hlast])
    | (rw [← heq]
       show (entryOfGroup kg.2).stack = _
       unfold entryOfGroup
       rw [hlast])
    | (rw [← heq]
       show (entryOfGroup kg.2).error_type = _
       unfold entryOfGroup
       rw [hlast])
    | (rw [← heq]
       show (entryOfGroup kg.2).message = _
       unfold entryOfGroup
       rw [hlast])
    | (rw [← heq]
       show (entryOfGroup kg.2).tool_name = _
       unfold entryOfGroup
       rw [hlast])
    | (rw [hkey, ← hfil, List.getLast?_eq_getLast kg.2 hne])
  }

/-- C4 witness: in the two-record fixture the reported entry is exactly the
physically last occurrence (id "b", timestamp 50). -/
theorem latest_occurrence_witness :
    ∃ e : ErrorEvent,
      e ∈ serverErrorEvents [.errorEvent errA, .errorEvent errB] "s1"
      ∧ (⟨"b", 50, "unknown", "T", "M", none, 2⟩ : ErrorLogEntry).id = e.id
      ∧ (⟨"b", 50, "unknown", "T", "M", none, 2⟩ : ErrorLogEntry).timestamp = e.timestamp
      ∧ (⟨"b", 50, "unknown", "T", "M", none, 2⟩ : ErrorLogEntry).stack = e.stack
      ∧ (⟨"b", 50, "unknown", "T", "M", none, 2⟩ : ErrorLogEntry).error_type = e.errorType
      ∧ (⟨"b", 50, "unknown", "T", "M", none, 2⟩ : ErrorLogEntry).message = e.message
      ∧ (⟨"b", 50, "unknown", "T", "M", none, 2⟩ : ErrorLogEntry).tool_name
        = recoverToolName e.metadata
      ∧ ((serverErrorEvents [.errorEvent errA, .errorEvent errB] "s1").filter
          (fun x => decide (singleErrorKey x = singleErrorKey e))).getLast? = some e :=
  latest_occurrence_amended [.errorEvent errA, .errorEvent errB] "s1" none
    ⟨"b", 50, "unknown", "T", "M", none, 2⟩ (by decide)

/-- C5 counterexample: with sampling rate 0 and the drawn value u = 0 (which is
in [0,1)), `u > rate` is false, so the record IS enqueued — the claim that
rate 0 never enqueues fails at this input. -/
theorem sampling_counterexample :
    (0:ℚ) ≤ 0 ∧ (0:ℚ) < 1
    ∧ trackToolCall 0 0 [] (mkToolEvent "e" "s" "t" 0 none true)
        = [mkToolEvent "e" "s" "t" 0 none true] := by
  refine ⟨le_refl 0, by norm_num, rfl⟩

/-- C5 amended: the record is dropped exactly when the drawn value exceeds the
sampling rate; rate 1 always enqueues; rate 0 enqueues exactly when the drawn
value is exactly 0 (so it drops everything except at u = 0). -/
theorem sampling_amended (u rate : ℚ) (q : List Event) (ev : Event)
    (h0 : 0 ≤ u) (h1 : u < 1) :
    (rate < u → trackToolCall rate u q ev = q)
    ∧ (u ≤ rate → trackToolCall rate u q ev = q ++ [ev])
    ∧ (rate = 1 → trackToolCall rate u q ev = q ++ [ev])
    ∧ (rate = 0 → (trackToolCall rate u q ev = q ++ [ev] ↔ u = 0)) := by
  unfold trackToolCall
  refine ⟨?_, ?_, ?_, ?_⟩
  · intro h; rw [if_pos h]
  · intro h; rw [if_neg (not_lt.mpr h)]
  · intro h; subst h; rw [if_neg (not_lt.mpr h1.le)]
  · intro h; subst h
    constructor
    · intro heq
      by_contra hne
      have hu : 0 < u := lt_of_le_of_ne h0 (Ne.symm hne)
      rw [if_pos hu] at heq
      have := congrArg List.length heq
      simp at this
    · intro h
      subst h
      rw [if_neg (lt_irrefl 0)]

/-- C5 witness: a concrete drawn value 1/2 ≤ rate 3/4 is enqueued. -/
theorem sampling_amended_witness :
    trackToolCall (3/4) (1/2) [] (mkToolEvent "e" "s" "t" 0 none true)
      = [mkToolEvent "e" "s" "t" 0 none true] :=
  (sampling_amended (1/2) (3/4) [] _ (by norm_num) (by norm_num)).2.1 (by norm_num)

/-- C6: when the buffer is non-empty and the sink's delivery fails, the whole
drained batch is prepended in front of the records that arrived during the
delivery, nothing is delivered, and no record is lost or invented; the failure
is absorbed (the step is a total function on states, mirroring the catch that
never rethrows). -/
theorem flush_requeue_on_failure (queue arrivals : List Event) (h : queue ≠ []) :
    flushStep queue arrivals false = (queue ++ arrivals, none)
    ∧ (∀ e : Event, e ∈ (flushStep queue arrivals false).1 ↔ e ∈ queue ∨ e ∈ arrivals) := by
  have hne : queue.isEmpty = false := by
    cases queue with
    | nil => exact absurd rfl h
    | cons a l => rfl
  constructor
  · simp [flushStep, hne]
  · intro e
    simp [flushStep, hne]

/-- C6 witness: one concrete failed flush requeues its single record. -/
theorem flush_requeue_witness :
    flushStep [mkToolEvent "e" "s" "t" 0 none true] [] false
      = ([mkToolEvent "e" "s" "t" 0 none true], none) := by
  have h := (flush_requeue_on_failure [mkToolEvent "e" "s" "t" 0 none true] []
    (by simp)).1
  simpa using h

/-- C7 counterexample: a query against a missing file returns the empty record
set, but the metrics view over an empty record set reports error rate
1 − success rate = 1 − 0 = 1, not 0 as the claim states. -/
theorem missing_file_counterexample :
    loadEvents ⟨none, 0, 0⟩ none 0 = ([], ⟨none, 0, 0⟩)
    ∧ (getServerMetrics 0 [] "s" .h1).metrics.error_rate = 1
    ∧ ¬ ((1:ℚ) = 0) := by
  refine ⟨rfl, ?_, by norm_num⟩
  have h : (getServerMetrics 0 [] "s" TimeRange.h1).metrics.error_rate = 1 - 0 := rfl
  rw [h]
  norm_num

/-- C7 amended: a query against a missing file path returns the empty record
set without an error, and the metrics view over it has total count 0, success
rate 0, average duration 0, all percentiles 0, an empty top-tools list — and
error rate 1, because the error rate is one minus the (zero) success rate. -/
theorem missing_file_zero_metrics (st : LoaderState) (now now2 : Int) (sid : String)
    (tr : TimeRange) :
    loadEvents st none now = ([], st)
    ∧ (getServerMetrics now2 (loadEvents st none now).1 sid tr).metrics
        = ⟨0, 0, 0, 0, 0, 0, 1, []⟩ := by
  refine ⟨rfl, ?_⟩
  have h : (getServerMetrics now2 (loadEvents st none now).1 sid tr).metrics
      = ⟨0, 0, 0, 0, 0, 0, 1 - 0, []⟩ := rfl
  rw [h]
  norm_num [MetricsBody.mk.injEq]

/-- C8 counterexample: one subject with two calls, only one carrying a
duration (100). The top-tools entry reports average 100 / 2 = 50 because the
accumulated duration is divided by the subject's total call count, while the
mean over the records that carry a duration is 100. -/
theorem top_tools_mean_counterexample :
    (getServerMetrics 0 [.toolCall tcA, .toolCall tcB] "s" .h1).metrics.top_tools
      = [⟨"t", 2, 50⟩]
    ∧ specMeanCarrying (serverToolCalls 0 [.toolCall tcA, .toolCall tcB] "s" .h1) = 100
    ∧ ¬ ((50:ℚ) = 100) := by
  refine ⟨?_, ?_, by norm_num⟩
  · have h : (getServerMetrics 0 [.toolCall tcA, .toolCall tcB] "s" TimeRange.h1).metrics.top_tools
        = [⟨"t", 2, truthyDurationSum [tcA, tcB] / ((2:ℕ) : ℚ)⟩] := rfl
    rw [h]
    have h2 : truthyDurationSum [tcA, tcB] = 0 + 100 := rfl
    rw [h2]
    norm_num
  · have h3 : specMeanCarrying (serverToolCalls 0 [.toolCall tcA, .toolCall tcB] "s" TimeRange.h1)
        = List.sum [(100:ℚ)] / ((1:ℕ) : ℚ) := rfl
    rw [h3]
    norm_num

/-- C8 amended: the overall average duration is the arithmetic mean over
exactly the records carrying a duration; the top-tools ranking is sorted
descending by call count and truncated to 10 entries, and each entry reports
the subject's total call count together with the subject's accumulated
(truthy) duration divided by that total call count — not the mean over only
the duration-carrying records of the subject. -/
theorem metrics_mean_and_top_tools (now : Int) (events : List Event) (sid : String)
    (tr : TimeRange) :
    (getServerMetrics now events sid tr).metrics.avg_duration_ms
      = specMeanCarrying (serverToolCalls now events sid tr)
    ∧ List.Sorted (keyDesc TopTool.calls) (getServerMetrics now events sid tr).metrics.top_tools
    ∧ (getServerMetrics now events sid tr).metrics.top_tools.length ≤ 10
    ∧ ∀ t ∈ (getServerMetrics now events sid tr).metrics.top_tools,
        0 < t.calls
        ∧ t.calls = ((serverToolCalls now events sid tr).filter
            (fun e => decide (e.toolName = t.name))).length
        ∧ t.avg_duration_ms
          = truthyDurationSum ((serverToolCalls now events sid tr).filter
              (fun e => decide (e.toolName = t.name))) / (t.calls : ℚ) := by
  refine ⟨meanOrZero_sortAsc _, sorted_take _ (List.sorted_insertionSort _ _),
    List.length_take_le _ _, ?_⟩
  intro t ht
  have h1 := List.mem_of_mem_take ht
  have h2 := (List.mem_insertionSort _).mp h1
  obtain ⟨kg, hkg, heq⟩ := List.mem_map.mp h2
  obtain ⟨_, hfil0⟩ := of_mem_groupByKey hkg
  have hfil : kg.2 = (serverToolCalls now events sid tr).filter
      (fun e => decide (e.toolName = kg.1)) := hfil0
  have hpos : 0 < kg.2.length := List.length_pos.mpr (group_ne_nil hkg)
  have hname : t.name = kg.1 := by rw [← heq]
  have hcalls : t.calls = kg.2.length := by rw [← heq]
  refine ⟨?_, ?_, ?_⟩
  · rw [hcalls]
    exact hpos
  · rw [hcalls, hname, hfil]
  · have havg : t.avg_duration_ms
        = if 0 < kg.2.length then truthyDurationSum kg.2 / (kg.2.length : ℚ) else 0 := by
      rw [← heq]
    rw [havg, if_pos hpos, hname, ← hfil, hcalls]

/-- C8 witness: the concrete two-call subject satisfies the amended top-tools
description: call count 2 and reported average 50 = (accumulated duration
100) / 2. -/
theorem metrics_mean_top_tools_witness :
    0 < (⟨"t", 2, (50:ℚ)⟩ : TopTool).calls
    ∧ (⟨"t", 2, (50:ℚ)⟩ : TopTool).calls
      = ((serverToolCalls 0 [.toolCall tcA, .toolCall tcB] "s" TimeRange.h1).filter
          (fun e => decide (e.toolName = (⟨"t", 2, (50:ℚ)⟩ : TopTool).name))).length
    ∧ (⟨"t", 2, (50:ℚ)⟩ : TopTool).avg_duration_ms
      = truthyDurationSum
          ((serverToolCalls 0 [.toolCall tcA, .toolCall tcB] "s" TimeRange.h1).filter
            (fun e => decide (e.toolName = (⟨"t", 2, (50:ℚ)⟩ : TopTool).name)))
        / (((⟨"t", 2, (50:ℚ)⟩ : TopTool).calls : ℕ) : ℚ) := by
  apply (metrics_mean_and_top_tools 0 [.toolCall tcA, .toolCall tcB] "s" TimeRange.h1).2.2.2
  have h : (getServerMetrics 0 [.toolCall tcA, .toolCall tcB] "s" TimeRange.h1).metrics.top_tools
      = [⟨"t", 2, truthyDurationSum [tcA, tcB] / ((2:ℕ) : ℚ)⟩] := rfl
  rw [h]
  have h50 : truthyDurationSum [tcA, tcB] / ((2:ℕ) : ℚ) = 50 := by
    have h2 : truthyDurationSum [tcA, tcB] = 0 + 100 := rfl
    rw [h2]
    norm_num
  rw [h50]
  exact List.mem_singleton_self _

/-- C9: delivering an empty batch through the durable file sink performs no
I/O: it returns successfully with the reporter state and the file system (file
content and parent directory) unchanged, for any serializer and any I/O
outcome. -/
theorem empty_batch_no_io :
    ∀ (serialize : Event → String) (st : ReporterState) (fs : SinkFS) (ioOk : Bool),
      fileReporterSend serialize [] st fs ioOk = .ok (st, fs) := by
  intro serialize st fs ioOk
  rfl

/-- C10: the error-log query returns the same response for every value of its
severity parameter — the parameter is accepted at the interface but has no
influence on the result, for every log content, source selector and limit. -/
theorem severity_noninterference :
    ∀ (events : List Event) (serverId : Option String) (limit : Option Nat)
      (s1 s2 : Severity),
      getErrorLogs events serverId limit s1 = getErrorLogs events serverId limit s2 := by
  intro events serverId limit s1 s2
  cases serverId with
  | none => rfl
  | some sid =>
    by_cases h : sid = "" <;> simp [getErrorLogs, getAllServersErrorLogs, h]

end MCPObservatory
